import Mathlib

set_option synthInstance.maxSize 512

/-!
Shallow embedding of `experimental/plugins/lando-platformsh/app.js`, the platform.sh
recipe plugin: its module-level setup guard, the `pre-init` config-normalization
handler, the `post-pull`/`post-push` credential refresh, the `pre-start` run-config
writer, the `post-start(1)` live-fact collection, and the two-phase `post-start(8)`
OPEN handler.  Event handlers are modelled as pure functions from their inputs to
the sequence of observable actions they perform (probe executions, cache writes,
log entries), with thrown JavaScript errors modelled explicitly.  Functions that
live in the plugin's `lib/` directory (not part of the sources under analysis) are
modelled from the specification and marked as such in their doc comments.
-/

namespace Lando

/-! ## JSON-ish objects and lodash helpers -/

/-- A flat JSON object: an ordered association list from keys to values, where a
value is either a string or JSON `null` (modelled as `Option.none`).  This is the
shape of a single relationship endpoint descriptor. -/
abbrev JObj := List (String × Option String)

/-- Property lookup on a JSON object.  JavaScript object semantics: a later
assignment to the same key wins, hence the lookup scans from the right. -/
def jLookup (o : JObj) (k : String) : Option (Option String) :=
  (o.reverse.find? (fun p => p.1 = k)).map (fun p => p.2)

/-- Embedding of lodash `_.merge(dst, src)` on flat objects (app.js line 209 merges
flat endpoint objects): every key of `src` is assigned into `dst` (null included),
keys only in `dst` are kept, and new keys are appended in `src` order. -/
def mergeObj (dst src : JObj) : JObj :=
  dst.map (fun p =>
    match jLookup src p.1 with
    | some v => (p.1, v)
    | none => p)
  ++ src.filter (fun p => (jLookup dst p.1).isNone)

/-- Parsed phase-1 probe output: a mapping from relationship name to the list of
endpoint descriptors that relationship exposes. -/
abbrev OpenData := List (String × List JObj)

/-! ## TokenCache (`utils.sortTokens`, spec-modelled) -/

/-- A platform.sh machine-token record, as cached by the post-pull/post-push
handler (app.js line 118): the token, the account identity (email), and the
issue date in epoch seconds. -/
structure CredentialRecord where
  token : String
  email : String
  date : Nat
deriving DecidableEq

/-- Dates of all records carrying identity `e`. -/
def identityDates (l : List CredentialRecord) (e : String) : List Nat :=
  (l.filter (fun r => r.email = e)).map (fun r => r.date)

/-- The most recent issue date among records carrying identity `e` (0 if none). -/
def maxDate (l : List CredentialRecord) (e : String) : Nat :=
  (identityDates l e).foldr max 0

/-- The winning record for identity `e`: a record with the most recent date,
the last such occurrence winning a tie. -/
def newestFor (l : List CredentialRecord) (e : String) : Option CredentialRecord :=
  (l.filter (fun r => r.email = e ∧ r.date = maxDate l e)).getLast?

/-- Deduplicate a credential list by account identity, keeping for every identity
present its most recent record. -/
def dedupeByIdentity (l : List CredentialRecord) : List CredentialRecord :=
  ((l.map (fun r => r.email)).dedup).filterMap (fun e => newestFor l e)

/-- Insert a record into a list sorted by date descending. -/
def insertByDateDesc (r : CredentialRecord) : List CredentialRecord → List CredentialRecord
  | [] => [r]
  | b :: t => if b.date ≤ r.date then r :: b :: t else b :: insertByDateDesc r t

/-- Insertion sort by issue date, most recent first. -/
def sortByDateDesc : List CredentialRecord → List CredentialRecord
  | [] => []
  | r :: t => insertByDateDesc r (sortByDateDesc t)

/-- Modelled from the spec: `utils.sortTokens` lives in `lib/utils.js`, which is not
among the sources under analysis.  Per the spec (§4.2), the merge concatenates the
existing and incoming credential lists, deduplicates them by account identity
keeping exactly the most recent record per identity, and sorts the result by
recency descending. -/
def sortTokens (existing incoming : List CredentialRecord) : List CredentialRecord :=
  sortByDateDesc (dedupeByIdentity (existing ++ incoming))

/-- Embedding of the credential-refresh step of the post-pull/post-push handler
(app.js lines 118-121): read the cached token list, merge in the single validated
record, and store the result. -/
def refreshTokens (cached : List CredentialRecord) (record : CredentialRecord) :
    List CredentialRecord :=
  sortTokens cached [record]

/-! ## Hostname synthesis and the openMerge descriptor -/

/-- Embedding of app.js line 161: the hostname synthesized into every backing
service's openMerge descriptor.  The domain suffix is the string literal
`lndo.site` in the source. -/
def openHostname (appName svcName : String) : String :=
  appName ++ "." ++ svcName ++ ".service._.lndo.site"

/-- The hostname in the form the spec describes:
`<app>.<service>.service._.<domain-suffix>` with the installation's configured
domain suffix (app.js line 34 reads that suffix from `app._config.domain`). -/
def specHostname (appName svcName domainSuffix : String) : String :=
  appName ++ "." ++ svcName ++ ".service._." ++ domainSuffix

/-- Embedding of app.js lines 158-166: the openMerge descriptor attached to a
backing service by the post-start(1) live-fact handler.  `ip` is the container IP
resolved by inspection, `rel` is the service's declared platform hostname, and the
type tag joins the declared type and version with a colon. -/
def openMerge (appName svcName pshType version : String)
    (ip : Option String) (rel : Option String) : JObj :=
  [("cluster", some "bespin"),
   ("fragment", none),
   ("hostname", some (openHostname appName svcName)),
   ("ip", ip),
   ("rel", rel),
   ("service", some svcName),
   ("type", some (pshType ++ ":" ++ version))]

/-! ## The post-start(8) OPEN handler -/

/-- A backing (non-application) service as the OPEN handler sees it: its name, the
raw stdout of its phase-1 probe, the outcome of parsing that stdout, and the
openMerge descriptor attached at post-start(1).  Parsing itself
(`open.parseOpenData`, in `lib/open.js`, not among the sources under analysis) is
modelled from the spec by its outcome: `none` when the output is not valid
structured data, `some d` when it parses to `d`. -/
structure PshService where
  name : String
  rawOutput : String
  probeParse : Option OpenData
  openMergeData : JObj
deriving DecidableEq

/-- An application server as the OPEN handler sees it: its name and its declared
relationships, each binding a relationship name to a backing-service name. -/
structure AppServer where
  name : String
  relationships : List (String × String)
deriving DecidableEq

/-- Observable actions of the OPEN handler, in execution order. -/
inductive OpenEvent where
  | probeService (name : String)
  | parseFailLogged (name : String) (raw : String)
  | collect (serviceData : List (String × OpenData))
  | cacheSet (key : String) (payload : OpenData)
  | probeApp (name : String)
deriving DecidableEq

/-- Embedding of app.js lines 204-216: the per-service continuation of a phase-1
probe.  On parse success the endpoint objects are each merged (lodash `_.merge`)
with the service's openMerge descriptor and the pair `[name, parsedData]` is
returned; on parse failure the handler catches, logs, and returns `undefined`
(modelled as `none`). -/
def serviceOpenStep (svc : PshService) : Option (String × OpenData) :=
  match svc.probeParse with
  | some parsed =>
      some (svc.name, parsed.map (fun p => (p.1, p.2.map (fun ep => mergeObj ep svc.openMergeData))))
  | none => none

/-- Phase-1 observable actions: one probe execution per backing service, followed
by a parse-failure log entry (tagged with the raw output, app.js line 214) for
every service whose output did not parse. -/
def phase1Events (services : List PshService) : List OpenEvent :=
  services.flatMap (fun s =>
    OpenEvent.probeService s.name ::
      (match s.probeParse with
       | some _ => []
       | none => [OpenEvent.parseFailLogged s.name s.rawOutput]))

/-- Embedding of lodash `_.fromPairs` as called on app.js line 221.  lodash reads
`pair[0]` of every entry of the array; an `undefined` entry — which is what the
parse-failure catch returned — makes it throw a `TypeError`, modelled as `none`. -/
def fromPairs : List (Option (String × OpenData)) → Option (List (String × OpenData))
  | [] => some []
  | none :: _ => none
  | some p :: rest => (fromPairs rest).map (fun l => p :: l)

/-- Modelled from the spec: `open.parseRelationships` and `open.generateOpenPayload`
live in `lib/open.js`, which is not among the sources under analysis.  Per the spec
(§4.3, phase 2), an application server's payload is built by looking up, for every
relationship name the application declares (bound to a backing-service name), the
corresponding entries of the phase-1 result mapping keyed by service name. -/
def generateOpenPayload (serviceData : List (String × OpenData))
    (rels : List (String × String)) : OpenData :=
  rels.map (fun rel =>
    (rel.1,
      ((((serviceData.find? (fun p => p.1 = rel.2)).map (fun p => p.2)).getD []).find?
          (fun q => q.1 = rel.1)).map (fun q => q.2) |>.getD []))

/-- Phase-2 observable actions (app.js lines 225-247): for every application
server, in order, a cache write of its computed payload under
`<app>.<appserver>.open.cache` followed by the in-container open probe. -/
def phase2Events (appName : String) (serviceData : List (String × OpenData))
    (appservers : List AppServer) : List OpenEvent :=
  appservers.flatMap (fun a =>
    [OpenEvent.cacheSet (appName ++ "." ++ a.name ++ ".open.cache")
       (generateOpenPayload serviceData a.relationships),
     OpenEvent.probeApp a.name])

/-- Result of one run of the OPEN handler: the actions it performed, and whether
its promise chain rejected with an uncaught error. -/
structure OpenRun where
  events : List OpenEvent
  aborted : Bool
deriving DecidableEq

/-- Embedding of the post-start(8) OPEN handler (app.js lines 188-249).  Phase 1
probes every backing service concurrently; the `.then` on the mapped promise is a
barrier, after which `_.fromPairs` collects the per-service results into a single
mapping.  If any entry is `undefined` (a parse failure), `_.fromPairs` throws and
the handler aborts before any collection or phase-2 work.  Otherwise every
application server is cached and opened. -/
def openHandler (appName : String) (services : List PshService)
    (appservers : List AppServer) : OpenRun :=
  match fromPairs (services.map serviceOpenStep) with
  | none => { events := phase1Events services, aborted := true }
  | some serviceData =>
      { events := phase1Events services ++
          OpenEvent.collect serviceData :: phase2Events appName serviceData appservers,
        aborted := false }

/-! ## The pre-init handler -/

/-- A parsed platform.sh application: its name and the config file that declared
it. -/
structure PshApplication where
  name : String
  configFile : String
deriving DecidableEq

/-- Observable steps of the pre-init handler, in execution order. -/
inductive PreInitEvent where
  | errorLogged (msg : String)
  | warnHandlerRegistered
  | routesParsed
  | applicationsParsed
  | relationshipsParsed
  | servicesParsed
  | runConfigBuilt
deriving DecidableEq

/-- A thrown JavaScript error, by kind.  The source never constructs a
`configError`; it is included so the absence of a fatal ConfigError is
expressible. -/
inductive JsError where
  | typeError (msg : String)
  | configError (msg : String)
deriving DecidableEq

/-- Embedding of the pre-init handler (app.js lines 47-104).  When the application
list is empty an error is logged (app.js line 50) — only logged: execution
continues.  The unsupported-services warning handler is registered, routes and
applications are parsed (the `lib/config.js` parsers, not among the sources under
analysis, are modelled from the spec as total).  Then the closest application is
looked up by config file (app.js line 81); when no application matches, the find
yields `undefined` and the unguarded property access
`app.platformsh.closestApp.name` on line 82 throws a `TypeError`, aborting the
handler before relationship resolution, service parsing, or run-config
generation. -/
def preInit (root : String) (applications : List PshApplication)
    (closestFile : String) : List PreInitEvent × Option JsError :=
  let head : List PreInitEvent :=
    (if applications.isEmpty then
      [PreInitEvent.errorLogged
        ("Could not detect any valid .platform.app.yaml files in " ++ root ++ " or its subdirs!")]
     else []) ++
    [PreInitEvent.warnHandlerRegistered, PreInitEvent.routesParsed,
     PreInitEvent.applicationsParsed]
  match applications.find? (fun a => a.configFile = closestFile) with
  | none => (head, some (JsError.typeError "Cannot read property of undefined (reading name)"))
  | some _ =>
      (head ++ [PreInitEvent.relationshipsParsed, PreInitEvent.servicesParsed,
        PreInitEvent.runConfigBuilt], none)

/-! ## The pre-start run-config writer -/

/-- One entry of `app.platformsh.runConfig`: the owning service, the file to
write, and the serialized payload. -/
structure RunConfigEntry where
  service : String
  file : String
  data : String
deriving DecidableEq

/-- Embedding of the pre-start(1) handler (app.js lines 134-143): when the
persisted already-configured marker (`app.preLockfile`) is absent, every
run-config entry is written to its file; when the marker is present, the handler
writes nothing.  The result is the list of (file, contents) writes performed. -/
def preStartWrites (lockfilePresent : Bool) (runConfig : List RunConfigEntry) :
    List (String × String) :=
  if lockfilePresent then [] else runConfig.map (fun s => (s.file, s.data))

/-! ## The module-level recipe guard -/

/-- The slice of `app.config` the module-level setup reads: the recipe name and
the optional config id override. -/
structure LandoAppConfig where
  recipe : Option String
  configId : Option String
deriving DecidableEq

/-- The slice of the app object the module-level setup reads or writes. -/
structure LandoApp where
  id : String
  name : String
  root : String
  userConfRoot : String
  configDomain : String
  config : LandoAppConfig
  configPath : Option String
  platformshDomain : Option String
  platformshId : Option String
  platformshTokenCache : Option String
deriving DecidableEq

/-- Side effects of the module-level setup, in execution order. -/
inductive SetupAction where
  | sanitizeAdded (key : String)
  | configDirEnsured (path : String)
  | handlerRegistered (event : String)
deriving DecidableEq

/-- Embedding of the module body (app.js lines 17-252): everything is guarded by
`config.recipe === 'platformsh'`.  Inside the guard the app id is reset from
`config.config.id` when present, the auth sanitizer is added, the config
directory is ensured, the platformsh fields are attached, and the six lifecycle
handlers are registered (pre-init, post-pull, post-push, and three post-init
registrations).  Outside the guard nothing happens at all. -/
def moduleSetup (app : LandoApp) : LandoApp × List SetupAction :=
  if app.config.recipe = some "platformsh" then
    ({ app with
        id := app.config.configId.getD app.id,
        configPath := some (app.userConfRoot ++ "/config/" ++ app.name),
        platformshDomain := some (app.name ++ "." ++ app.configDomain),
        platformshId := some (app.config.configId.getD app.id),
        platformshTokenCache := some "platformsh.tokens" },
     [SetupAction.sanitizeAdded "platformsh-auth",
      SetupAction.configDirEnsured (app.userConfRoot ++ "/config/" ++ app.name),
      SetupAction.handlerRegistered "pre-init",
      SetupAction.handlerRegistered "post-pull",
      SetupAction.handlerRegistered "post-push",
      SetupAction.handlerRegistered "post-init",
      SetupAction.handlerRegistered "post-init",
      SetupAction.handlerRegistered "post-init"])
  else (app, [])

/-! ## Concrete instances used by the theorems -/

/-- A backing service whose probe output fails to parse. -/
def c2BadSvc : PshService :=
  { name := "badsvc", rawOutput := "this is not json", probeParse := none, openMergeData := [] }

/-- A backing service whose probe output parses fine. -/
def c2OkSvc : PshService :=
  { name := "oksvc", rawOutput := "good output",
    probeParse := some [("database", [[("host", some "x")]])], openMergeData := [] }

/-- An application server declaring one relationship bound to `oksvc`. -/
def c2Web : AppServer := { name := "web", relationships := [("database", "oksvc")] }

/-- The spec's worked example: the backing service `db` of declared type `mysql`,
version `10`, whose phase-1 probe output parses to a single `database` endpoint
with host `x`, and whose openMerge descriptor carries container IP `10.0.0.5`. -/
def c5Db : PshService :=
  { name := "db", rawOutput := "db probe stdout",
    probeParse := some [("database", [[("host", some "x")]])],
    openMergeData := openMerge "myapp" "db" "mysql" "10" (some "10.0.0.5") (some "database.internal") }

/-- The phase-1 result mapping of the spec's worked example. -/
def c5ServiceData : List (String × OpenData) :=
  (fromPairs ([c5Db].map serviceOpenStep)).getD []

/-- The phase-2 payload of the spec's worked example: application `web` declares
relationship `database` bound to service `db`. -/
def c5Payload : OpenData :=
  generateOpenPayload c5ServiceData [("database", "db")]

/-- The endpoint list under the `database` key of the worked example's payload. -/
def c5Endpoints : List JObj :=
  ((c5Payload.find? (fun p => p.1 = "database")).map (fun p => p.2)).getD []

/-- An app whose recipe is not platformsh. -/
def drupalApp : LandoApp :=
  { id := "1", name := "myapp", root := "/code", userConfRoot := "/home/u/.lando",
    configDomain := "lndo.site", config := { recipe := some "drupal7", configId := none },
    configPath := none, platformshDomain := none, platformshId := none,
    platformshTokenCache := none }

/-- The spec's credential-refresh example: a first token for identity
`a@x.com`. -/
def tokenT1 : CredentialRecord := { token := "T1", email := "a@x.com", date := 1000 }

/-- The spec's credential-refresh example: a second token for the same identity
with a later timestamp. -/
def tokenT2 : CredentialRecord := { token := "T2", email := "a@x.com", date := 2000 }

/-! ## Lemmas about the token merge -/

/-- An element produced by `getLast?` belongs to the list. -/
theorem getLast?_mem {α : Type} {l : List α} {a : α} (h : l.getLast? = some a) : a ∈ l := by
  cases l with
  | nil => simp at h
  | cons x t =>
      have hne : x :: t ≠ [] := List.cons_ne_nil x t
      rw [List.getLast?_eq_getLast_of_ne_nil hne] at h
      have hmem := List.getLast_mem hne
      exact Option.some_inj.mp h ▸ hmem

/-- A member of a list of naturals is bounded by the folded maximum. -/
theorem le_foldr_max {a : Nat} : ∀ {m : List Nat}, a ∈ m → a ≤ m.foldr max 0 := by
  intro m
  induction m with
  | nil => intro h; simp at h
  | cons x t ih =>
      intro h
      rcases List.mem_cons.mp h with h | h
      · subst h; exact Nat.le_max_left _ _
      · exact le_trans (ih h) (Nat.le_max_right _ _)

/-- The folded maximum of a nonempty list of naturals is one of its members. -/
theorem foldr_max_mem : ∀ {m : List Nat}, m ≠ [] → m.foldr max 0 ∈ m := by
  intro m
  induction m with
  | nil => intro h; exact absurd rfl h
  | cons x t ih =>
      intro _
      by_cases ht : t = []
      · subst ht; simp
      · rcases Nat.le_total x (t.foldr max 0) with h | h
        · have hx : (x :: t).foldr max 0 = t.foldr max 0 := Nat.max_eq_right h
          rw [hx]
          exact List.mem_cons_of_mem x (ih ht)
        · have hx : (x :: t).foldr max 0 = x := Nat.max_eq_left h
          rw [hx]
          exact List.mem_cons_self x t

/-- Folding max from an arbitrary seed. -/
theorem foldr_max_init (b : Nat) : ∀ (m : List Nat), m.foldr max b = max b (m.foldr max 0) := by
  intro m
  induction m with
  | nil => simp
  | cons x t ih =>
      show max x (t.foldr max b) = max b (max x (t.foldr max 0))
      rw [ih, max_left_comm]

/-- Prepending elements already present does not change `dedup`. -/
theorem subset_dedup_append {α : Type} [DecidableEq α] (m₁ m₂ : List α)
    (hsub : ∀ a ∈ m₁, a ∈ m₂) : (m₁ ++ m₂).dedup = m₂.dedup := by
  induction m₁ with
  | nil => rfl
  | cons a t ih =>
      have ha : a ∈ t ++ m₂ := List.mem_append.2 (Or.inr (hsub a (List.mem_cons_self a t)))
      calc ((a :: t) ++ m₂).dedup = (a :: (t ++ m₂)).dedup := rfl
        _ = (t ++ m₂).dedup := List.dedup_cons_of_mem ha
        _ = m₂.dedup := ih (fun b hb => hsub b (List.mem_cons_of_mem a hb))

/-- What `newestFor` returns: a member of the list carrying the looked-up
identity and its maximal date. -/
theorem newestFor_spec {l : List CredentialRecord} {e : String} {s : CredentialRecord}
    (h : newestFor l e = some s) : s ∈ l ∧ s.email = e ∧ s.date = maxDate l e := by
  have hm := getLast?_mem h
  have hf := List.mem_filter.mp hm
  have hp := of_decide_eq_true hf.2
  exact ⟨hf.1, hp.1, hp.2⟩

/-- For any record in the list, `newestFor` at its identity yields a record. -/
theorem newestFor_isSome {l : List CredentialRecord} {r : CredentialRecord} (hr : r ∈ l) :
    ∃ s, newestFor l r.email = some s := by
  have hd : r.date ∈ identityDates l r.email :=
    List.mem_map_of_mem _ (List.mem_filter.mpr ⟨hr, by simp⟩)
  have hne : identityDates l r.email ≠ [] := List.ne_nil_of_mem hd
  obtain ⟨q, hq, hqd⟩ := List.mem_map.mp (foldr_max_mem hne)
  have hqf := List.mem_filter.mp hq
  have hqe : q.email = r.email := of_decide_eq_true hqf.2
  have hq2 : q ∈ l.filter (fun x => x.email = r.email ∧ x.date = maxDate l r.email) := by
    refine List.mem_filter.mpr ⟨hqf.1, ?_⟩
    simp only [decide_eq_true_eq]
    exact ⟨hqe, hqd⟩
  have hne2 : l.filter (fun x => x.email = r.email ∧ x.date = maxDate l r.email) ≠ [] :=
    List.ne_nil_of_mem hq2
  rw [newestFor, List.getLast?_eq_getLast_of_ne_nil hne2]
  exact ⟨_, rfl⟩

/-- Every record in the input is dominated by the maximal date of its
identity. -/
theorem maxDate_le_of_mem {l : List CredentialRecord} {q : CredentialRecord} {e : String}
    (hq : q ∈ l) (hqe : q.email = e) : q.date ≤ maxDate l e :=
  le_foldr_max (List.mem_map_of_mem _ (List.mem_filter.mpr ⟨hq, by simp [hqe]⟩))

/-- FilterMapping a record-producing function over a duplicate-free key list
yields pairwise-distinct identities. -/
theorem pairwise_emails_filterMap (f : String → Option CredentialRecord)
    (hf : ∀ e r, f e = some r → r.email = e) :
    ∀ {es : List String}, es.Nodup →
      (es.filterMap f).Pairwise (fun a b => a.email ≠ b.email) := by
  intro es
  induction es with
  | nil => intro h; simp
  | cons e t ih =>
      intro hnd
      have hnd2 := List.nodup_cons.mp hnd
      rw [List.filterMap_cons]
      cases hfe : f e with
      | none => exact ih hnd2.2
      | some s =>
          refine List.pairwise_cons.mpr ⟨?_, ih hnd2.2⟩
          intro b hb
          obtain ⟨e2, he2, hbe⟩ := List.mem_filterMap.mp hb
          rw [hf e s hfe, hf e2 b hbe]
          intro hee
          exact hnd2.1 (by rw [hee]; exact he2)

/-- The deduplicated list has pairwise-distinct identities. -/
theorem dedupeByIdentity_one_per_identity (l : List CredentialRecord) :
    (dedupeByIdentity l).Pairwise (fun a b => a.email ≠ b.email) :=
  pairwise_emails_filterMap _ (fun _ _ h => (newestFor_spec h).2.1) (List.nodup_dedup _)

/-- The descending insertion keeps the list's elements. -/
theorem insertByDateDesc_perm (r : CredentialRecord) (t : List CredentialRecord) :
    (insertByDateDesc r t).Perm (r :: t) := by
  induction t with
  | nil => exact List.Perm.refl _
  | cons b u ih =>
      unfold insertByDateDesc
      by_cases h : b.date ≤ r.date
      · rw [if_pos h]
      · rw [if_neg h]
        exact (List.Perm.cons b ih).trans (List.Perm.swap r b u)

/-- The descending sort is a permutation. -/
theorem sortByDateDesc_perm (l : List CredentialRecord) : (sortByDateDesc l).Perm l := by
  induction l with
  | nil => exact List.Perm.refl _
  | cons r t ih =>
      exact (insertByDateDesc_perm r (sortByDateDesc t)).trans (List.Perm.cons r ih)

/-- Descending insertion preserves descending order. -/
theorem pairwise_insertByDateDesc {r : CredentialRecord} {t : List CredentialRecord}
    (ht : t.Pairwise (fun a b => b.date ≤ a.date)) :
    (insertByDateDesc r t).Pairwise (fun a b => b.date ≤ a.date) := by
  induction t with
  | nil => simp [insertByDateDesc]
  | cons b u ih =>
      have hparts := List.pairwise_cons.mp ht
      unfold insertByDateDesc
      by_cases h : b.date ≤ r.date
      · rw [if_pos h]
        refine List.pairwise_cons.mpr ⟨?_, ht⟩
        intro x hx
        rcases List.mem_cons.mp hx with hx | hx
        · subst hx; exact h
        · exact le_trans (hparts.1 x hx) h
      · rw [if_neg h]
        refine List.pairwise_cons.mpr ⟨?_, ih hparts.2⟩
        intro x hx
        rcases List.mem_cons.mp ((insertByDateDesc_perm r u).mem_iff.mp hx) with hx2 | hx2
        · subst hx2; exact le_of_lt (not_le.mp h)
        · exact hparts.1 x hx2

/-- The descending sort sorts by date descending. -/
theorem sortByDateDesc_sorted (l : List CredentialRecord) :
    (sortByDateDesc l).Pairwise (fun a b => b.date ≤ a.date) := by
  induction l with
  | nil => simp [sortByDateDesc]
  | cons r t ih => exact pairwise_insertByDateDesc ih

/-- The maximal date over a list concatenated with itself. -/
theorem maxDate_append_self (l : List CredentialRecord) (e : String) :
    maxDate (l ++ l) e = maxDate l e := by
  unfold maxDate identityDates
  rw [List.filter_append, List.map_append, List.foldr_append, foldr_max_init, max_self]

/-- The winning record over a list concatenated with itself. -/
theorem newestFor_append_self (l : List CredentialRecord) (e : String) :
    newestFor (l ++ l) e = newestFor l e := by
  unfold newestFor
  rw [maxDate_append_self, List.filter_append]
  by_cases hf : l.filter (fun r => r.email = e ∧ r.date = maxDate l e) = []
  · rw [hf]
    rfl
  · exact List.getLast?_append_of_ne_nil _ hf

/-- Deduplication of a list concatenated with itself. -/
theorem dedupeByIdentity_append_self (l : List CredentialRecord) :
    dedupeByIdentity (l ++ l) = dedupeByIdentity l := by
  unfold dedupeByIdentity
  rw [List.map_append, subset_dedup_append _ _ (fun a ha => ha)]
  have hfun : (fun e => newestFor (l ++ l) e) = (fun e => newestFor l e) :=
    funext (fun e => newestFor_append_self l e)
  rw [hfun]

/-- Merging a list with itself is the same as normalizing it once. -/
theorem sortTokens_self (l : List CredentialRecord) : sortTokens l l = sortTokens [] l := by
  unfold sortTokens
  rw [dedupeByIdentity_append_self]
  rfl

/-! ## Structural lemmas about the OPEN handler trace -/

/-- Every phase-1 event is a backing-service probe or a parse-failure log. -/
theorem phase1Events_shape {x : OpenEvent} {services : List PshService}
    (hx : x ∈ phase1Events services) :
    (∃ n, x = OpenEvent.probeService n) ∨ ∃ n r, x = OpenEvent.parseFailLogged n r := by
  rcases List.mem_flatMap.mp hx with ⟨s, -, hmem⟩
  rcases List.mem_cons.mp hmem with h | h
  · exact Or.inl ⟨s.name, h⟩
  · cases hp : s.probeParse with
    | some d => rw [hp] at h; simp at h
    | none =>
        rw [hp] at h
        exact Or.inr ⟨s.name, s.rawOutput, List.mem_singleton.mp h⟩

/-- Every phase-2 event is a cache write or an application-server probe. -/
theorem phase2Events_shape {x : OpenEvent} {appName : String}
    {sd : List (String × OpenData)} {appservers : List AppServer}
    (hx : x ∈ phase2Events appName sd appservers) :
    (∃ k p, x = OpenEvent.cacheSet k p) ∨ ∃ n, x = OpenEvent.probeApp n := by
  rcases List.mem_flatMap.mp hx with ⟨a, -, hmem⟩
  rcases List.mem_cons.mp hmem with h | h
  · exact Or.inl ⟨_, _, h⟩
  · exact Or.inr ⟨a.name, List.mem_singleton.mp h⟩

/-- Indexing the two elements of an adjacent pair embedded in a list. -/
theorem getElem?_append_pair {α : Type} (l r : List α) (x y : α) :
    (l ++ x :: y :: r)[l.length]? = some x ∧ (l ++ x :: y :: r)[l.length + 1]? = some y := by
  constructor
  · rw [List.getElem?_append_right (le_refl _)]
    simp
  · rw [List.getElem?_append_right (Nat.le_succ_of_le (le_refl _))]
    simp

/-- The phase-2 event list contains, for every application server, the adjacent
pair of its cache write and its open probe. -/
theorem phase2Events_split (appName : String) (sd : List (String × OpenData))
    {a : AppServer} {appservers : List AppServer} (ha : a ∈ appservers) :
    ∃ pre post, phase2Events appName sd appservers =
      pre ++ OpenEvent.cacheSet (appName ++ "." ++ a.name ++ ".open.cache")
        (generateOpenPayload sd a.relationships) :: OpenEvent.probeApp a.name :: post := by
  induction appservers with
  | nil => simp at ha
  | cons b rest ih =>
      rcases List.mem_cons.mp ha with h | h
      · subst h
        exact ⟨[], phase2Events appName sd rest, by simp [phase2Events]⟩
      · rcases ih h with ⟨pre, post, hsplit⟩
        refine ⟨OpenEvent.cacheSet (appName ++ "." ++ b.name ++ ".open.cache")
            (generateOpenPayload sd b.relationships) ::
          OpenEvent.probeApp b.name :: pre, post, ?_⟩
        have hcons : phase2Events appName sd (b :: rest) =
            OpenEvent.cacheSet (appName ++ "." ++ b.name ++ ".open.cache")
              (generateOpenPayload sd b.relationships) ::
            OpenEvent.probeApp b.name :: phase2Events appName sd rest := by
          simp [phase2Events]
        rw [hcons, hsplit]
        rfl

/-! ## Claim theorems -/

/-- C1: in every run of the OPEN handler, every application-server probe comes
strictly after every backing-service probe, and strictly after the event that
collects all phase-1 results into the single service-name-keyed mapping.  The
`.then` on the mapped phase-1 promise is the full barrier; when phase 1 does not
complete cleanly no application-server probe happens at all. -/
theorem C1_phase2_after_phase1_barrier
    (appName : String) (services : List PshService) (appservers : List AppServer)
    (i j : Nat) (a s : String)
    (hi : (openHandler appName services appservers).events[i]? = some (OpenEvent.probeApp a))
    (hj : (openHandler appName services appservers).events[j]? = some (OpenEvent.probeService s)) :
    j < i ∧ ∃ k sd, k < i ∧
      (openHandler appName services appservers).events[k]? = some (OpenEvent.collect sd) := by
  rcases hfp : fromPairs (services.map serviceOpenStep) with _ | sd
  · simp only [openHandler, hfp] at hi
    rcases phase1Events_shape (List.getElem?_mem hi) with ⟨n, h⟩ | ⟨n, r, h⟩ <;> simp at h
  · simp only [openHandler, hfp] at hi hj ⊢
    have hjlt : j < (phase1Events services).length := by
      by_contra hge
      push_neg at hge
      rw [List.getElem?_append_right hge] at hj
      rcases List.mem_cons.mp (List.getElem?_mem hj) with h | h
      · simp at h
      · rcases phase2Events_shape h with ⟨k', p', h⟩ | ⟨n, h⟩ <;> simp at h
    have hige : (phase1Events services).length ≤ i := by
      by_contra hlt
      push_neg at hlt
      rw [List.getElem?_append_left hlt] at hi
      rcases phase1Events_shape (List.getElem?_mem hi) with ⟨n, h⟩ | ⟨n, r, h⟩ <;> simp at h
    have hcol : (phase1Events services ++
        OpenEvent.collect sd :: phase2Events appName sd appservers)[(phase1Events services).length]? =
          some (OpenEvent.collect sd) := by
      rw [List.getElem?_append_right (le_refl _)]
      simp
    have hne : i ≠ (phase1Events services).length := by
      intro he
      rw [he, hcol] at hi
      simp at hi
    have hgt : (phase1Events services).length < i := lt_of_le_of_ne hige (Ne.symm hne)
    exact ⟨lt_trans hjlt hgt, (phase1Events services).length, sd, hgt, hcol⟩

/-- Witness for C1 at a concrete run: one backing service, one application
server; the application-server probe sits at index 3, the service probe at
index 0, and the collection event in between. -/
theorem C1_phase2_after_phase1_barrier_witness :
    0 < 3 ∧ ∃ k sd, k < 3 ∧
      (openHandler "myapp" [c5Db] [c2Web]).events[k]? = some (OpenEvent.collect sd) :=
  C1_phase2_after_phase1_barrier "myapp" [c5Db] [c2Web] 3 0 "web" "db"
    (by decide) (by decide)

/-- C2: the claim says a phase-1 parse failure is isolated — the failing service
contributes empty data, the error is logged with the raw output, the other
services' data still reaches phase 2, and the run is not aborted.  The code does
log the error with the raw output, but the catch returns `undefined`, and lodash
`_.fromPairs` then throws a `TypeError` reading `pair[0]` of that entry, so the
handler aborts: there is no collection, no cache write, and no application-server
probe, and the healthy service's parsed data is discarded.  This theorem
evaluates the embedded handler at the failing input. -/
theorem C2_parse_failure_aborts_run :
    openHandler "myapp" [c2BadSvc, c2OkSvc] [c2Web] =
      { events := [OpenEvent.probeService "badsvc",
                   OpenEvent.parseFailLogged "badsvc" "this is not json",
                   OpenEvent.probeService "oksvc"],
        aborted := true } := by
  decide

/-- C3 counterexample: with no valid application definitions the pre-init
handler does not abort with a fatal ConfigError.  It logs the error and keeps
going — the warning handler is registered and routes and applications are still
parsed — and the run then aborts with a `TypeError` from the unguarded
closest-application lookup, not with a ConfigError. -/
theorem C3_no_configError_counterexample :
    preInit "/code" [] "/code/.platform.app.yaml" =
      ([PreInitEvent.errorLogged
          "Could not detect any valid .platform.app.yaml files in /code or its subdirs!",
        PreInitEvent.warnHandlerRegistered, PreInitEvent.routesParsed,
        PreInitEvent.applicationsParsed],
       some (JsError.typeError "Cannot read property of undefined (reading name)")) := by
  decide

/-- C3 amended: when config normalization finds no valid application definitions,
an error is logged but no ConfigError is thrown; the handler continues through
route and application parsing and then aborts with a `TypeError` at the unguarded
closest-application lookup, so relationship resolution, service parsing,
run-config generation (and hence OPEN) never execute. -/
theorem C3_empty_apps_log_then_typeError (root closestFile : String) :
    preInit root [] closestFile =
      ([PreInitEvent.errorLogged
          ("Could not detect any valid .platform.app.yaml files in " ++ root ++ " or its subdirs!"),
        PreInitEvent.warnHandlerRegistered, PreInitEvent.routesParsed,
        PreInitEvent.applicationsParsed],
       some (JsError.typeError "Cannot read property of undefined (reading name)")) := rfl

/-- C4: the TokenCache merge concatenates existing and incoming credential
lists and yields exactly one record per account identity — the most recent —
sorted by recency descending; it is idempotent on already-merged lists; and two
successive refreshes with tokens T1 then T2 for the same identity (T2 the more
recent) leave only T2's record cached. -/
theorem C4_tokenCache_merge :
    (∀ l₁ l₂ : List CredentialRecord,
      (sortTokens l₁ l₂).Pairwise (fun a b => a.email ≠ b.email)) ∧
    (∀ l₁ l₂ : List CredentialRecord,
      (sortTokens l₁ l₂).Pairwise (fun a b => b.date ≤ a.date)) ∧
    (∀ (l₁ l₂ : List CredentialRecord) (r : CredentialRecord), r ∈ l₁ ++ l₂ →
      ∃ s ∈ sortTokens l₁ l₂, s.email = r.email ∧
        ∀ q ∈ l₁ ++ l₂, q.email = r.email → q.date ≤ s.date) ∧
    (∀ (l₁ l₂ : List CredentialRecord) (s : CredentialRecord),
      s ∈ sortTokens l₁ l₂ → s ∈ l₁ ++ l₂) ∧
    (∀ l : List CredentialRecord, sortTokens [] l = l → sortTokens l l = l) ∧
    refreshTokens (refreshTokens [] tokenT1) tokenT2 = [tokenT2] := by
  refine ⟨?_, ?_, ?_, ?_, ?_, ?_⟩
  · intro l₁ l₂
    have hsym : Symmetric (fun a b : CredentialRecord => a.email ≠ b.email) :=
      fun _ _ h he => h he.symm
    exact ((sortByDateDesc_perm _).pairwise_iff @hsym).mpr
      (dedupeByIdentity_one_per_identity _)
  · intro l₁ l₂
    exact sortByDateDesc_sorted _
  · intro l₁ l₂ r hr
    obtain ⟨s, hs⟩ := newestFor_isSome hr
    have hspec := newestFor_spec hs
    refine ⟨s, ?_, hspec.2.1, ?_⟩
    · have hsd : s ∈ dedupeByIdentity (l₁ ++ l₂) :=
        List.mem_filterMap.mpr
          ⟨r.email, List.mem_dedup.mpr (List.mem_map_of_mem _ hr), hs⟩
      exact (sortByDateDesc_perm _).mem_iff.mpr hsd
    · intro q hq hqe
      rw [hspec.2.2]
      exact maxDate_le_of_mem hq hqe
  · intro l₁ l₂ s hs
    have hd : s ∈ dedupeByIdentity (l₁ ++ l₂) := (sortByDateDesc_perm _).mem_iff.mp hs
    obtain ⟨e, -, hsome⟩ := List.mem_filterMap.mp hd
    exact (newestFor_spec hsome).1
  · intro l hl
    rw [sortTokens_self]
    exact hl
  · decide

/-- Witness for C4 at concrete inputs: the hypothesis-bearing components applied
to the T1/T2 example lists. -/
theorem C4_tokenCache_merge_witness :
    (∃ s ∈ sortTokens [tokenT1] [tokenT2], s.email = tokenT1.email ∧
      ∀ q ∈ [tokenT1] ++ [tokenT2], q.email = tokenT1.email → q.date ≤ s.date) ∧
    tokenT2 ∈ [tokenT1] ++ [tokenT2] ∧
    sortTokens [tokenT2] [tokenT2] = [tokenT2] :=
  ⟨C4_tokenCache_merge.2.2.1 [tokenT1] [tokenT2] tokenT1 (by decide),
   C4_tokenCache_merge.2.2.2.1 [tokenT1] [tokenT2] tokenT2 (by decide),
   C4_tokenCache_merge.2.2.2.2.1 [tokenT2] (by decide)⟩

/-- C5: the spec's worked example.  Given service `db` of type `mysql:10`, one
application `web` declaring relationship `database` bound to `db`, phase-1 probe
output parsing to a `database` endpoint with host `x`, merged with container IP
`10.0.0.5`, the phase-2 payload has exactly one `database` endpoint carrying host
`x`, ip `10.0.0.5`, service `db`, and type `mysql:10` (declared type and version
joined by a colon). -/
theorem C5_worked_example :
    c5Payload.map (fun p => p.1) = ["database"] ∧
    c5Endpoints.map (fun ep =>
        (jLookup ep "host", jLookup ep "ip", jLookup ep "service", jLookup ep "type")) =
      [(some (some "x"), some (some "10.0.0.5"), some (some "db"), some (some "mysql:10"))] := by
  decide

/-- C6 counterexample: the synthesized hostname does not use the installation's
configured domain suffix.  With configured domain `example.com` the claimed form
`<app>.<service>.service._.example.com` differs from what the code builds, which
always ends in the literal `lndo.site`; the openMerge descriptor carries that
literal-suffix hostname. -/
theorem C6_hostname_counterexample :
    openHostname "myapp" "db" ≠ specHostname "myapp" "db" "example.com" ∧
    jLookup (openMerge "myapp" "db" "mysql" "10" none none) "hostname" =
      some (some "myapp.db.service._.lndo.site") := by
  decide

/-- C6 amended: the hostname synthesized into a backing service's phase-1
endpoint data has the form `<app>.<service>.service._.lndo.site` — the domain
suffix is the hard-coded literal `lndo.site`, regardless of the installation's
configured domain suffix. -/
theorem C6_hostname_literal_suffix (appName svcName : String) :
    openHostname appName svcName = specHostname appName svcName "lndo.site" := by
  simp only [openHostname, specHostname, String.append_assoc]
  rw [show (".service._." ++ "lndo.site" : String) = ".service._.lndo.site" from rfl]

/-- C7: for every application server opened in phase 2, the computed relationship
payload is written to the cache under `<app>.<appserver>.open.cache` strictly
before the open probe runs on that application server: the cache write and the
probe are adjacent events, in that order, in the handler's trace. -/
theorem C7_cache_set_before_open
    (appName : String) (services : List PshService) (appservers : List AppServer)
    (a : AppServer) (ha : a ∈ appservers)
    (hok : (openHandler appName services appservers).aborted = false) :
    ∃ i payload,
      (openHandler appName services appservers).events[i]? =
        some (OpenEvent.cacheSet (appName ++ "." ++ a.name ++ ".open.cache") payload) ∧
      (openHandler appName services appservers).events[i + 1]? =
        some (OpenEvent.probeApp a.name) := by
  rcases hfp : fromPairs (services.map serviceOpenStep) with _ | sd
  · simp [openHandler, hfp] at hok
  · simp only [openHandler, hfp]
    rcases phase2Events_split appName sd ha with ⟨pre, post, hsplit⟩
    rw [hsplit]
    have hre : phase1Events services ++ OpenEvent.collect sd ::
        (pre ++ OpenEvent.cacheSet (appName ++ "." ++ a.name ++ ".open.cache")
          (generateOpenPayload sd a.relationships) :: OpenEvent.probeApp a.name :: post) =
        (phase1Events services ++ OpenEvent.collect sd :: pre) ++
          OpenEvent.cacheSet (appName ++ "." ++ a.name ++ ".open.cache")
            (generateOpenPayload sd a.relationships) :: OpenEvent.probeApp a.name :: post := by
      simp
    rw [hre]
    exact ⟨(phase1Events services ++ OpenEvent.collect sd :: pre).length,
      generateOpenPayload sd a.relationships,
      (getElem?_append_pair _ post _ _).1, (getElem?_append_pair _ post _ _).2⟩

/-- Witness for C7 at a concrete run. -/
theorem C7_cache_set_before_open_witness :
    ∃ i payload,
      (openHandler "myapp" [c5Db] [c2Web]).events[i]? =
        some (OpenEvent.cacheSet ("myapp" ++ "." ++ c2Web.name ++ ".open.cache") payload) ∧
      (openHandler "myapp" [c5Db] [c2Web]).events[i + 1]? =
        some (OpenEvent.probeApp c2Web.name) :=
  C7_cache_set_before_open "myapp" [c5Db] [c2Web] c2Web (by decide) (by decide)

/-- C8 counterexample: when no parsed application's config file matches the
closest-application lookup, pre-init does not raise an explicit ConfigError; the
unguarded `closestApp.name` access throws a `TypeError`. -/
theorem C8_typeError_counterexample :
    preInit "/code" [⟨"web", "/code/web/.platform.app.yaml"⟩] "/code/api/.platform.app.yaml" =
      ([PreInitEvent.warnHandlerRegistered, PreInitEvent.routesParsed,
        PreInitEvent.applicationsParsed],
       some (JsError.typeError "Cannot read property of undefined (reading name)")) := by
  decide

/-- C8 amended: if no parsed application's config file matches the
closest-application lookup, pre-init fails with a `TypeError` from the unguarded
lookup (there is no explicit ConfigError and no defined fallback). -/
theorem C8_no_match_typeErrors (root closestFile : String)
    (applications : List PshApplication)
    (h : ∀ a ∈ applications, a.configFile ≠ closestFile) :
    (preInit root applications closestFile).2 =
      some (JsError.typeError "Cannot read property of undefined (reading name)") := by
  have hf : applications.find? (fun a => a.configFile = closestFile) = none := by
    rw [List.find?_eq_none]
    intro x hx
    simpa using h x hx
  simp only [preInit, hf]

/-- Witness for C8 amended at a concrete input. -/
theorem C8_no_match_typeErrors_witness :
    (preInit "/code" [⟨"api", "/code/api/.platform.app.yaml"⟩] "/code/.platform.app.yaml").2 =
      some (JsError.typeError "Cannot read property of undefined (reading name)") :=
  C8_no_match_typeErrors "/code" "/code/.platform.app.yaml"
    [⟨"api", "/code/api/.platform.app.yaml"⟩] (by decide)

/-- C9: the pre-start handler writes the run-config payloads only on a first
start.  When the persisted already-configured marker is present no file is
written at all; when it is absent, exactly the run-config entries are written,
each to its own file. -/
theorem C9_runconfig_write_guard (runConfig : List RunConfigEntry) (w : String × String) :
    preStartWrites true runConfig = [] ∧
    (w ∈ preStartWrites false runConfig ↔ ∃ e ∈ runConfig, (e.file, e.data) = w) := by
  constructor
  · rfl
  · simp [preStartWrites, List.mem_map]

/-- C10: for an app whose recipe is not `platformsh` the module body performs no
action at all: no sanitizer, no config directory, no handler registrations, and
the app object is returned with every field unchanged. -/
theorem C10_non_platformsh_noop (app : LandoApp)
    (h : app.config.recipe ≠ some "platformsh") :
    moduleSetup app = (app, []) := by
  simp [moduleSetup, h]

/-- Witness for C10 at a concrete non-platformsh app. -/
theorem C10_non_platformsh_noop_witness : moduleSetup drupalApp = (drupalApp, []) :=
  C10_non_platformsh_noop drupalApp (by decide)

end Lando
